import Mathlib

/-!
# Verification of the Admira ETL transform-and-reconcile engine

A shallow embedding of the core of the `admira-etl` Go service and proofs
about it.  The embedding follows these conventions:

* Go `int` fields are modelled as `Int`; Go `float64` fields are modelled
  as `ℚ` (exact arithmetic, the standard idealisation of the float code).
* Go maps are modelled as insertion-ordered association lists
  (`List (κ × v)`); map assignment is `updAssoc`, map lookup with its
  presence bit is `lookupA` returning an `Option`.
* `time.Time` calendar days parsed with layout 2006-01-02 are modelled by
  the `Date` structure together with `parseDate`, a model of
  `time.Parse` restricted to that layout (four digit year, zero padded
  month and day, day-of-month range check, no trailing text).
* A Go slice expression that can panic is modelled by an `Option` result:
  `none` models the runtime panic.
-/

/-- A calendar day, the model of a `time.Time` produced by
`time.Parse("2006-01-02", s)`. -/
structure Date where
  year : Nat
  month : Nat
  day : Nat
deriving DecidableEq, Repr

/-- Model of Go `time.Time.Before` on parsed calendar days:
lexicographic order on (year, month, day). -/
def dateLT (a b : Date) : Bool :=
  decide (a.year < b.year ∨ (a.year = b.year ∧
    (a.month < b.month ∨ (a.month = b.month ∧ a.day < b.day))))

/-- Gregorian leap-year rule used by Go `time`. -/
def isLeapYear (y : Nat) : Bool :=
  (y % 4 == 0 && y % 100 != 0) || y % 400 == 0

/-- Number of days in a month, as validated by Go `time.Parse`. -/
def daysInMonth (y m : Nat) : Nat :=
  if m = 2 then (if isLeapYear y then 29 else 28)
  else if m = 4 ∨ m = 6 ∨ m = 9 ∨ m = 11 then 30
  else 31

/-- Numeric value of a decimal digit character. -/
def digitVal (c : Char) : Nat := c.toNat - 48

/-- Model of `time.Parse("2006-01-02", s)`: exactly ten characters
`dddd-dd-dd`, month in 1..12, day within the month, otherwise `none`
(the parse error). -/
def parseDate (s : String) : Option Date :=
  match s.toList with
  | [y1, y2, y3, y4, h1, m1, m2, h2, d1, d2] =>
    if y1.isDigit && y2.isDigit && y3.isDigit && y4.isDigit &&
       h1 == '-' && m1.isDigit && m2.isDigit &&
       h2 == '-' && d1.isDigit && d2.isDigit then
      let y := ((digitVal y1 * 10 + digitVal y2) * 10 + digitVal y3) * 10 + digitVal y4
      let mo := digitVal m1 * 10 + digitVal m2
      let da := digitVal d1 * 10 + digitVal d2
      if 1 ≤ mo && mo ≤ 12 && 1 ≤ da && da ≤ daysInMonth y mo then
        some ⟨y, mo, da⟩
      else none
    else none
  | _ => none

/-- `normalizeUTM` from `internal/etl/service.go`:
`strings.ToLower(strings.TrimSpace(utm))` (ASCII model). -/
def normalizeUTM (utm : String) : String := utm.trim.toLower

/-- `models.AdsPerformance` (`internal/models`). -/
structure AdsPerformance where
  Date : String
  CampaignID : String
  Channel : String
  Clicks : Int
  Impressions : Int
  Cost : ℚ
  UTMCampaign : String
  UTMSource : String
  UTMMedium : String
deriving DecidableEq, Repr

/-- `models.Opportunity` (`internal/models`).  `CreatedAt : Int` models
the `time.Time` timestamp; it is never read by the verified functions. -/
structure Opportunity where
  OpportunityID : String
  ContactEmail : String
  Stage : String
  Amount : ℚ
  CreatedAt : Int
  UTMCampaign : String
  UTMSource : String
  UTMMedium : String
deriving DecidableEq, Repr

/-- `models.TransformedData` (`internal/models`). -/
structure TransformedData where
  Date : String
  Channel : String
  CampaignID : String
  Clicks : Int
  Impressions : Int
  Cost : ℚ
  Leads : Int
  Opportunities : Int
  ClosedWon : Int
  Revenue : ℚ
  CPC : ℚ
  CPA : ℚ
  CVRLeadToOpp : ℚ
  CVROppToWon : ℚ
  ROAS : ℚ
deriving DecidableEq, Repr

instance : Inhabited TransformedData :=
  ⟨⟨"", "", "", 0, 0, 0, 0, 0, 0, 0, 0, 0, 0, 0, 0⟩⟩

/-- `etl.CRMLookupKey` (`internal/etl/service.go`). -/
structure CRMLookupKey where
  UTMCampaign : String
  UTMSource : String
  UTMMedium : String
deriving DecidableEq, Repr

/-- `etl.Metrics` (`internal/etl/service.go`). -/
structure Metrics where
  Leads : Int
  Opportunities : Int
  ClosedWon : Int
  Revenue : ℚ
  CPC : ℚ
  CPA : ℚ
  CVRLeadToOpp : ℚ
  CVROppToWon : ℚ
  ROAS : ℚ
deriving DecidableEq, Repr

/-! ## Association-list model of Go maps -/

/-- Map read with presence bit: the model of `v, ok := m[k]`. -/
def lookupA {α β : Type} [DecidableEq α] (k : α) : List (α × β) → Option β
  | [] => none
  | (k2, v) :: rest => if k2 = k then some v else lookupA k rest

/-- Map assignment `m[k] = v`: replaces the binding of `k` if present,
otherwise appends a fresh binding. -/
def updAssoc {α β : Type} [DecidableEq α] (m : List (α × β)) (k : α) (v : β) :
    List (α × β) :=
  match m with
  | [] => [(k, v)]
  | (k2, v2) :: rest =>
    if k2 = k then (k, v) :: rest else (k2, v2) :: updAssoc rest k v

theorem lookupA_updAssoc_self {α β : Type} [DecidableEq α]
    (m : List (α × β)) (k : α) (v : β) : lookupA k (updAssoc m k v) = some v := by
  induction m with
  | nil => simp [updAssoc, lookupA]
  | cons p rest ih =>
    obtain ⟨k2, v2⟩ := p
    by_cases h : k2 = k <;> simp [updAssoc, lookupA, h, ih]

theorem lookupA_updAssoc_ne {α β : Type} [DecidableEq α]
    (m : List (α × β)) {k k2 : α} (v : β) (h : k2 ≠ k) :
    lookupA k2 (updAssoc m k v) = lookupA k2 m := by
  have hne : ¬ k = k2 := fun hh => h hh.symm
  induction m with
  | nil => simp [updAssoc, lookupA, hne]
  | cons p rest ih =>
    obtain ⟨k3, v3⟩ := p
    by_cases h3 : k3 = k
    · subst h3
      simp [updAssoc, lookupA, hne]
    · simp only [updAssoc, if_neg h3, lookupA]
      by_cases h4 : k3 = k2 <;> simp [h4, ih]

/-! ## Matcher (`buildCRMLookup`, `findMatchingOpportunities`) -/

/-- The normalized lookup key built from an opportunity in
`buildCRMLookup`. -/
def oppKey (opp : Opportunity) : CRMLookupKey :=
  ⟨normalizeUTM opp.UTMCampaign, normalizeUTM opp.UTMSource,
    normalizeUTM opp.UTMMedium⟩

/-- `buildCRMLookup` (`internal/etl/service.go`, lines 183 to 196):
for each opportunity, `lookup[key] = append(lookup[key], opp)` on the
normalized key. -/
def buildCRMLookup (opportunities : List Opportunity) :
    List (CRMLookupKey × List Opportunity) :=
  opportunities.foldl
    (fun lookup opp =>
      let k := oppKey opp
      match lookupA k lookup with
      | some prior => updAssoc lookup k (prior ++ [opp])
      | none => updAssoc lookup k [opp])
    []

/-- The exact normalized key of an ad. -/
def adExactKey (ad : AdsPerformance) : CRMLookupKey :=
  ⟨normalizeUTM ad.UTMCampaign, normalizeUTM ad.UTMSource,
    normalizeUTM ad.UTMMedium⟩

/-- The campaign-only fallback key of an ad. -/
def adCampaignKey (ad : AdsPerformance) : CRMLookupKey :=
  ⟨normalizeUTM ad.UTMCampaign, "", ""⟩

/-- The source-only fallback key of an ad. -/
def adSourceKey (ad : AdsPerformance) : CRMLookupKey :=
  ⟨"", normalizeUTM ad.UTMSource, ""⟩

/-- `findMatchingOpportunities` (`internal/etl/service.go`, lines 198 to
233): exact key, then campaign-only key, then source-only key, each
returned as soon as the key exists in the map, else the empty list. -/
def findMatchingOpportunities (ad : AdsPerformance)
    (crmLookup : List (CRMLookupKey × List Opportunity)) : List Opportunity :=
  match lookupA (adExactKey ad) crmLookup with
  | some opportunities => opportunities
  | none =>
    match lookupA (adCampaignKey ad) crmLookup with
    | some opportunities => opportunities
    | none =>
      match lookupA (adSourceKey ad) crmLookup with
      | some opportunities => opportunities
      | none => []

/-- The group of opportunities sharing the normalized key `k`, in input
order.  This is the specification-level reading of the index. -/
def crmGroup (opportunities : List Opportunity) (k : CRMLookupKey) :
    List Opportunity :=
  opportunities.filter (fun o => decide (oppKey o = k))

/-! ## Metrics Calculator (`calculateMetrics`) -/

/-- Go conversion `int(f)` on a `float64`: truncation toward zero. -/
def truncToZero (q : ℚ) : Int := if 0 ≤ q then ⌊q⌋ else -⌊-q⌋

/-- `constants.LeadConversionRate` (`internal/constants/constants.go`,
value 0.1); `calculateMetrics` uses the same literal 0.1 inline. -/
def LeadConversionRate : ℚ := 1 / 10

/-- `calculateMetrics` (`internal/etl/service.go`, lines 239 to 279).
The loop over opportunities counts them all, counts and sums the amount
of those with stage closed_won; leads is the Go truncation of
clicks times 0.1; each quotient is computed only under the positive
guard of the source, else left at its zero initial value. -/
def calculateMetrics (ad : AdsPerformance) (opportunities : List Opportunity) :
    Metrics :=
  let opps : Int := (opportunities.length : Int)
  let closedWonList := opportunities.filter (fun o => o.Stage == "closed_won")
  let closedWon : Int := (closedWonList.length : Int)
  let revenue : ℚ := (closedWonList.map (fun o => o.Amount)).sum
  let leads : Int := truncToZero ((ad.Clicks : ℚ) * LeadConversionRate)
  { Leads := leads
    Opportunities := opps
    ClosedWon := closedWon
    Revenue := revenue
    CPC := if 0 < ad.Clicks then ad.Cost / (ad.Clicks : ℚ) else 0
    CPA := if 0 < leads then ad.Cost / (leads : ℚ) else 0
    CVRLeadToOpp := if 0 < leads then (opps : ℚ) / (leads : ℚ) else 0
    CVROppToWon := if 0 < opps then (closedWon : ℚ) / (opps : ℚ) else 0
    ROAS := if 0 < ad.Cost then revenue / ad.Cost else 0 }

/-! ## Transform Engine (`transformData`) -/

/-- The `TransformedData` record that `transformData` emits for one ad
record (`internal/etl/service.go`, lines 137 to 159). -/
def mkTransformed (ad : AdsPerformance)
    (crmLookup : List (CRMLookupKey × List Opportunity)) : TransformedData :=
  let metrics := calculateMetrics ad (findMatchingOpportunities ad crmLookup)
  { Date := ad.Date
    Channel := ad.Channel
    CampaignID := ad.CampaignID
    Clicks := ad.Clicks
    Impressions := ad.Impressions
    Cost := ad.Cost
    Leads := metrics.Leads
    Opportunities := metrics.Opportunities
    ClosedWon := metrics.ClosedWon
    Revenue := metrics.Revenue
    CPC := metrics.CPC
    CPA := metrics.CPA
    CVRLeadToOpp := metrics.CVRLeadToOpp
    CVROppToWon := metrics.CVROppToWon
    ROAS := metrics.ROAS }

/-- The body of the transform loop, one ad record at a time
(`internal/etl/service.go`, lines 124 to 160).  `sinceTime : Option
Date` models the Go `time.Time` argument, `none` standing for the zero
value (`sinceTime.IsZero()`).  The date of an ad record is parsed only
inside the non-zero branch, exactly as in the source. -/
def transformStep (crmLookup : List (CRMLookupKey × List Opportunity))
    (sinceTime : Option Date) (acc : List TransformedData)
    (ad : AdsPerformance) : List TransformedData :=
  match sinceTime with
  | some since =>
    match parseDate ad.Date with
    | none => acc
    | some adDate =>
      if dateLT adDate since then acc
      else acc ++ [mkTransformed ad crmLookup]
  | none => acc ++ [mkTransformed ad crmLookup]

/-- `transformData` (`internal/etl/service.go`, lines 118 to 163):
build one CRM index, then run the transform loop over the ad batch. -/
def transformData (adsData : List AdsPerformance)
    (crmData : List Opportunity) (sinceTime : Option Date) :
    List TransformedData :=
  let crmLookup := buildCRMLookup crmData
  adsData.foldl (transformStep crmLookup sinceTime) []

/-- Specification-level skip predicate of the transform loop: a record
is kept when `sinceTime` is unset, or when its date parses and is not
strictly before `sinceTime`. -/
def keepAd (sinceTime : Option Date) (ad : AdsPerformance) : Bool :=
  match sinceTime with
  | none => true
  | some since =>
    match parseDate ad.Date with
    | none => false
    | some adDate => !dateLT adDate since

/-! ## Store (`storage.InMemoryStorage`) -/

/-- The mutable state of `storage.InMemoryStorage`: the record
collection and the ingestion-marker map, the latter modelled by its key
multiset (its wall-clock values are never observed by
`HasBeenIngested`). -/
structure StoreState where
  data : List TransformedData
  ingestionDates : List String
deriving DecidableEq, Repr

/-- The initial state built by `NewInMemoryStorage`. -/
def emptyStore : StoreState := ⟨[], []⟩

/-- `StoreTransformedData` (storage source, lines 262 to 275): appends
the batch and stamps a marker for the date of every item. -/
def StoreTransformedData (s : StoreState) (batch : List TransformedData) :
    StoreState :=
  { data := s.data ++ batch
    ingestionDates := s.ingestionDates ++ batch.map (fun item => item.Date) }

/-- `HasBeenIngested` (storage source, lines 350 to 355). -/
def HasBeenIngested (s : StoreState) (date : String) : Bool :=
  s.ingestionDates.contains date

/-- Store states reachable from the fresh store through the mutating
API (`StoreTransformedData` is the only mutation of either field). -/
inductive ReachableStore : StoreState → Prop
  | init : ReachableStore emptyStore
  | step (s : StoreState) (batch : List TransformedData) :
      ReachableStore s → ReachableStore (StoreTransformedData s batch)

/-- `matchesFilters` (storage source, lines 318 to 335): exact match on
the channel and campaign_id keys; the utm_campaign key and unknown keys
are ignored.  The Go map of filters is modelled as a key-value list. -/
def matchesFilters (item : TransformedData) (filters : List (String × String)) :
    Bool :=
  filters.all (fun kv =>
    if kv.1 = "channel" then item.Channel == kv.2
    else if kv.1 = "campaign_id" then item.CampaignID == kv.2
    else true)

/-- The filtering loop of `GetTransformedData` (storage source, lines
281 to 300): keep records whose date parses, is neither before `from`
nor after `to`, and which match the filters. -/
def queryFilter (data : List TransformedData) (fromD toD : Date)
    (filters : List (String × String)) : List TransformedData :=
  data.filter (fun item =>
    match parseDate item.Date with
    | none => false
    | some itemDate =>
      !dateLT itemDate fromD && !dateLT toD itemDate && matchesFilters item filters)

/-- `GetTransformedData` (storage source, lines 277 to 316), as a
function of the stored record list.  The final Go slice expression
`filtered[start:end]` panics when `start` is negative; the panic is
modelled by `none`. -/
def GetTransformedData (data : List TransformedData) (fromD toD : Date)
    (filters : List (String × String)) (limit offset : Int) :
    Option (List TransformedData) :=
  let filtered := queryFilter data fromD toD filters
  let len : Int := (filtered.length : Int)
  let start := offset
  let stop := if limit ≤ 0 then len else offset + limit
  if start ≥ len then some []
  else
    let stop2 := if stop > len then len else stop
    if 0 ≤ start ∧ start ≤ stop2 then
      some ((filtered.drop start.toNat).take (stop2 - start).toNat)
    else none

/-- `GetFunnelMetrics` (`internal/etl/service.go`, lines 286 to 292):
the utmCampaign argument is accepted and an empty filter map is passed
to the store. -/
def GetFunnelMetrics (data : List TransformedData) (fromD toD : Date)
    (utmCampaign : String) (limit offset : Int) :
    Option (List TransformedData) :=
  let _ := utmCampaign
  GetTransformedData data fromD toD [] limit offset

/-! ## Exporter (`ExportData` loop) -/

/-- The delivery loop of `ExportData` (`internal/etl/service.go`, lines
315 to 320), with the sink behaviour abstracted as a predicate telling
whether delivery of a record succeeds.  Returns the list of records
whose delivery was attempted (in order) and the failing record, if any,
as the surfaced error. -/
def exportLoop (records : List TransformedData)
    (send : TransformedData → Bool) :
    List TransformedData × Option TransformedData :=
  match records with
  | [] => ([], none)
  | r :: rest =>
    if send r then
      let result := exportLoop rest send
      (r :: result.1, result.2)
    else ([r], some r)

/-! ## Consolidator (`consolidateDataByChannelAndCampaign`) -/

/-- The grouping key string `item.Channel + "|" + item.CampaignID`
(`internal/etl/service.go`, line 330). -/
def consKey (item : TransformedData) : String :=
  item.Channel ++ "|" ++ item.CampaignID

/-- The merge step of the consolidation loop (`internal/etl/service.go`,
lines 332 to 358): counters are summed; each derived metric is
recomputed from the new totals only when its denominator is positive,
otherwise it keeps the value it had in `existing`. -/
def mergeRecord (existing item : TransformedData) : TransformedData :=
  let clicks := existing.Clicks + item.Clicks
  let impressions := existing.Impressions + item.Impressions
  let cost := existing.Cost + item.Cost
  let leads := existing.Leads + item.Leads
  let opps := existing.Opportunities + item.Opportunities
  let closedWon := existing.ClosedWon + item.ClosedWon
  let revenue := existing.Revenue + item.Revenue
  { existing with
    Clicks := clicks
    Impressions := impressions
    Cost := cost
    Leads := leads
    Opportunities := opps
    ClosedWon := closedWon
    Revenue := revenue
    CPC := if 0 < clicks then cost / (clicks : ℚ) else existing.CPC
    CPA := if 0 < leads then cost / (leads : ℚ) else existing.CPA
    CVRLeadToOpp := if 0 < leads then (opps : ℚ) / (leads : ℚ) else existing.CVRLeadToOpp
    CVROppToWon := if 0 < opps then (closedWon : ℚ) / (opps : ℚ) else existing.CVROppToWon
    ROAS := if 0 < cost then revenue / cost else existing.ROAS }

/-- One iteration of the consolidation loop: merge into the existing
bucket, or store the item unchanged as a fresh bucket. -/
def consStep (m : List (String × TransformedData)) (item : TransformedData) :
    List (String × TransformedData) :=
  match lookupA (consKey item) m with
  | some existing => updAssoc m (consKey item) (mergeRecord existing item)
  | none => updAssoc m (consKey item) item

/-- The bucket map built by the consolidation loop, as an
insertion-ordered association list. -/
def consFold (data : List TransformedData) : List (String × TransformedData) :=
  data.foldl consStep []

/-- The sort order of the consolidated output
(`internal/etl/service.go`, lines 371 to 376): by channel, then by
campaign id. -/
def consLE (a b : TransformedData) : Prop :=
  a.Channel < b.Channel ∨ (a.Channel = b.Channel ∧ a.CampaignID ≤ b.CampaignID)

instance : DecidableRel consLE := fun a b => by
  unfold consLE; infer_instance

instance : IsTotal TransformedData consLE := by
  constructor
  intro a b
  rcases lt_trichotomy a.Channel b.Channel with h | h | h
  · exact Or.inl (Or.inl h)
  · rcases le_total a.CampaignID b.CampaignID with h2 | h2
    · exact Or.inl (Or.inr ⟨h, h2⟩)
    · exact Or.inr (Or.inr ⟨h.symm, h2⟩)
  · exact Or.inr (Or.inl h)

instance : IsTrans TransformedData consLE := by
  constructor
  intro a b c hab hbc
  rcases hab with hab | ⟨hab, hab2⟩
  · rcases hbc with hbc | ⟨hbc, _⟩
    · exact Or.inl (hab.trans hbc)
    · exact Or.inl (hbc ▸ hab)
  · rcases hbc with hbc | ⟨hbc, hbc2⟩
    · exact Or.inl (hab ▸ hbc)
    · exact Or.inr ⟨hab.trans hbc, hab2.trans hbc2⟩

/-- `consolidateDataByChannelAndCampaign` (`internal/etl/service.go`,
lines 326 to 379): build the bucket map, collect its values and sort
them by (channel, campaign id).  The Go map iteration order before the
sort is immaterial: distinct buckets always carry distinct
(channel, campaign id) pairs, so the sorted result is unique; the
association list is kept in insertion order and sorted with insertion
sort. -/
def consolidateDataByChannelAndCampaign (data : List TransformedData) :
    List TransformedData :=
  List.insertionSort consLE ((consFold data).map (fun kv => kv.2))

/-- Specification-side grouping: the records of `data` whose grouping
key is `k`, in input order. -/
def consGroup (data : List TransformedData) (k : String) :
    List TransformedData :=
  data.filter (fun r => decide (consKey r = k))

/-- Specification-side merged value of one group: the first record of
the group merged left to right with the remaining ones. -/
def consMergeGroup (g : List TransformedData) : TransformedData :=
  match g with
  | [] => default
  | h :: t => t.foldl mergeRecord h

/-- The distinct grouping keys of `data` in first-occurrence order. -/
def consKeys (data : List TransformedData) : List String :=
  data.foldl (fun ks r => if consKey r ∈ ks then ks else ks ++ [consKey r]) []

/-! ## Basic facts about the guarded divisions -/

theorem truncToZero_of_nonneg {q : ℚ} (h : 0 ≤ q) : truncToZero q = ⌊q⌋ := by
  simp [truncToZero, h]

theorem truncToZero_nonneg {q : ℚ} (h : 0 ≤ q) : 0 ≤ truncToZero q := by
  rw [truncToZero_of_nonneg h]
  exact Int.floor_nonneg.mpr h

theorem guardSwapInt (x : Int) (hx : 0 ≤ x) (q : ℚ) :
    (if 0 < x then q else 0) = (if x = 0 then 0 else q) := by
  by_cases h : x = 0
  · simp [h]
  · have : 0 < x := lt_of_le_of_ne hx (fun hh => h hh.symm)
    simp [h, this]

theorem guardSwapRat {x : ℚ} (hx : 0 ≤ x) (q : ℚ) :
    (if 0 < x then q else 0) = (if x = 0 then 0 else q) := by
  by_cases h : x = 0
  · simp [h]
  · have : 0 < x := lt_of_le_of_ne hx (fun hh => h hh.symm)
    simp [h, this]

theorem calculateMetrics_leads_nonneg (ad : AdsPerformance)
    (opps : List Opportunity) (h : 0 ≤ ad.Clicks) :
    0 ≤ (calculateMetrics ad opps).Leads := by
  have hq : (0 : ℚ) ≤ (ad.Clicks : ℚ) * LeadConversionRate := by
    apply mul_nonneg
    · exact_mod_cast h
    · norm_num [LeadConversionRate]
  simpa [calculateMetrics] using truncToZero_nonneg hq

theorem calculateMetrics_opps_nonneg (ad : AdsPerformance)
    (opps : List Opportunity) : 0 ≤ (calculateMetrics ad opps).Opportunities := by
  simp [calculateMetrics]

/-- C2: for every ad record with non-negative clicks and cost (the data
model of ad records) and every matched opportunity list, each derived
ratio is the guarded quotient: 0 when its denominator is zero, the exact
quotient otherwise, never an error value. -/
theorem c2_metrics_guarded_division (ad : AdsPerformance)
    (opps : List Opportunity) (hclicks : 0 ≤ ad.Clicks) (hcost : 0 ≤ ad.Cost) :
    (calculateMetrics ad opps).CPC =
      (if ad.Clicks = 0 then 0 else ad.Cost / (ad.Clicks : ℚ)) ∧
    (calculateMetrics ad opps).CPA =
      (if (calculateMetrics ad opps).Leads = 0 then 0
       else ad.Cost / ((calculateMetrics ad opps).Leads : ℚ)) ∧
    (calculateMetrics ad opps).CVRLeadToOpp =
      (if (calculateMetrics ad opps).Leads = 0 then 0
       else ((calculateMetrics ad opps).Opportunities : ℚ) /
         ((calculateMetrics ad opps).Leads : ℚ)) ∧
    (calculateMetrics ad opps).CVROppToWon =
      (if (calculateMetrics ad opps).Opportunities = 0 then 0
       else ((calculateMetrics ad opps).ClosedWon : ℚ) /
         ((calculateMetrics ad opps).Opportunities : ℚ)) ∧
    (calculateMetrics ad opps).ROAS =
      (if ad.Cost = 0 then 0 else (calculateMetrics ad opps).Revenue / ad.Cost) := by
  have hleads := calculateMetrics_leads_nonneg ad opps hclicks
  have hopps := calculateMetrics_opps_nonneg ad opps
  refine ⟨?_, ?_, ?_, ?_, ?_⟩
  · simpa [calculateMetrics] using
      guardSwapInt ad.Clicks hclicks (ad.Cost / (ad.Clicks : ℚ))
  · simpa [calculateMetrics] using
      guardSwapInt ((calculateMetrics ad opps).Leads) hleads
        (ad.Cost / (((calculateMetrics ad opps).Leads : ℚ)))
  · simpa [calculateMetrics] using
      guardSwapInt ((calculateMetrics ad opps).Leads) hleads
        (((calculateMetrics ad opps).Opportunities : ℚ) /
          (((calculateMetrics ad opps).Leads : ℚ)))
  · simpa [calculateMetrics] using
      guardSwapInt ((calculateMetrics ad opps).Opportunities) hopps
        (((calculateMetrics ad opps).ClosedWon : ℚ) /
          (((calculateMetrics ad opps).Opportunities : ℚ)))
  · simpa [calculateMetrics] using
      guardSwapRat hcost ((calculateMetrics ad opps).Revenue / ad.Cost)

/-- The zero-clicks, zero-cost ad record used by the C2 witness. -/
def adZero : AdsPerformance :=
  { Date := "2025-01-01", CampaignID := "C-1001", Channel := "google_ads"
    Clicks := 0, Impressions := 50000, Cost := 0
    UTMCampaign := "back_to_school", UTMSource := "google", UTMMedium := "cpc" }

theorem c2_witness :
    0 ≤ adZero.Clicks ∧ 0 ≤ adZero.Cost ∧
    ((calculateMetrics adZero []).CPC =
      (if adZero.Clicks = 0 then 0 else adZero.Cost / (adZero.Clicks : ℚ)) ∧
    (calculateMetrics adZero []).CPA =
      (if (calculateMetrics adZero []).Leads = 0 then 0
       else adZero.Cost / ((calculateMetrics adZero []).Leads : ℚ)) ∧
    (calculateMetrics adZero []).CVRLeadToOpp =
      (if (calculateMetrics adZero []).Leads = 0 then 0
       else ((calculateMetrics adZero []).Opportunities : ℚ) /
         ((calculateMetrics adZero []).Leads : ℚ)) ∧
    (calculateMetrics adZero []).CVROppToWon =
      (if (calculateMetrics adZero []).Opportunities = 0 then 0
       else ((calculateMetrics adZero []).ClosedWon : ℚ) /
         ((calculateMetrics adZero []).Opportunities : ℚ)) ∧
    (calculateMetrics adZero []).ROAS =
      (if adZero.Cost = 0 then 0
       else (calculateMetrics adZero []).Revenue / adZero.Cost)) :=
  ⟨by decide, by decide,
    c2_metrics_guarded_division adZero [] (by decide) (by decide)⟩

/-- C8: for every ad record with non-negative clicks, the computed leads
count is the floor of clicks times the fixed 0.1 lead conversion rate,
and does not depend on the matched opportunity list. -/
theorem c8_lead_estimation (ad : AdsPerformance) (opps : List Opportunity)
    (h : 0 ≤ ad.Clicks) :
    (calculateMetrics ad opps).Leads =
      ⌊(ad.Clicks : ℚ) * LeadConversionRate⌋ ∧
    (∀ opps2 : List Opportunity,
      (calculateMetrics ad opps2).Leads = (calculateMetrics ad opps).Leads) := by
  have hq : (0 : ℚ) ≤ (ad.Clicks : ℚ) * LeadConversionRate := by
    apply mul_nonneg
    · exact_mod_cast h
    · norm_num [LeadConversionRate]
  constructor
  · simpa [calculateMetrics] using truncToZero_of_nonneg hq
  · intro opps2
    simp [calculateMetrics]

theorem c8_witness :
    0 ≤ adZero.Clicks ∧
    ((calculateMetrics adZero []).Leads =
      ⌊(adZero.Clicks : ℚ) * LeadConversionRate⌋ ∧
    (∀ opps2 : List Opportunity,
      (calculateMetrics adZero opps2).Leads = (calculateMetrics adZero []).Leads)) :=
  ⟨by decide, c8_lead_estimation adZero [] (by decide)⟩

/-- C9: the utmCampaign argument of the funnel query has no influence on
the result; only the date range and the pagination parameters are
applied. -/
theorem c9_funnel_filter_ignored (data : List TransformedData)
    (fromD toD : Date) (u1 u2 : String) (limit offset : Int) :
    GetFunnelMetrics data fromD toD u1 limit offset =
      GetFunnelMetrics data fromD toD u2 limit offset := rfl

/-- The stored record used by the C10 theorem; its date parses and lies
in the queried range. -/
def storedRec : TransformedData :=
  { Date := "2025-01-01", Channel := "google_ads", CampaignID := "C-1001"
    Clicks := 1000, Impressions := 50000, Cost := 250
    Leads := 100, Opportunities := 2, ClosedWon := 1, Revenue := 5000
    CPC := 0, CPA := 0, CVRLeadToOpp := 0, CVROppToWon := 0
    ROAS := 0 }

/-- The query date 2025-01-01. -/
def dayOne : Date := ⟨2025, 1, 1⟩

/-- C10: with a store holding one matching record, a query with negative
offset and positive limit reaches the slice expression with a negative
start index and panics (modelled by `none`) instead of returning a list
or an error. -/
theorem c10_negative_offset_panic :
    queryFilter [storedRec] dayOne dayOne [] = [storedRec] ∧
    GetTransformedData [storedRec] dayOne dayOne [] 1 (-1) = none := by
  constructor
  · decide
  · decide

/-! ## Export loop -/

/-- C7: the export loop attempts deliveries in order; the first failing
record aborts the loop (no later record is attempted) and is surfaced as
the error, while the records delivered before it stay delivered; with no
failure every record is delivered and no error is surfaced. -/
theorem c7_export_stops_at_failure (recs : List TransformedData)
    (send : TransformedData → Bool) :
    (∀ pre r suf, recs = pre ++ r :: suf → (∀ x ∈ pre, send x = true) →
      send r = false → exportLoop recs send = (pre ++ [r], some r)) ∧
    ((∀ x ∈ recs, send x = true) → exportLoop recs send = (recs, none)) := by
  constructor
  · intro pre
    induction pre generalizing recs with
    | nil =>
      intro r suf hrecs _ hr
      subst hrecs
      simp [exportLoop, hr]
    | cons p pre2 ih =>
      intro r suf hrecs hpre hr
      subst hrecs
      have hp : send p = true := hpre p (by simp)
      have h2 := ih (pre2 ++ r :: suf) r suf rfl
        (fun x hx => hpre x (by simp [hx])) hr
      simp [exportLoop, hp, h2]
  · intro hall
    induction recs with
    | nil => simp [exportLoop]
    | cons r rest ih =>
      have hr : send r = true := hall r (by simp)
      have h2 := ih (fun x hx => hall x (by simp [hx]))
      simp [exportLoop, hr, h2]

/-- Consolidated records used by the C7 witness: the second delivery
fails. -/
def expRecA : TransformedData :=
  { (default : TransformedData) with Channel := "a_ads", CampaignID := "C-1", Clicks := 0 }

/-- Second consolidated record of the C7 witness (its delivery fails
under `sendW`). -/
def expRecB : TransformedData :=
  { (default : TransformedData) with Channel := "b_ads", CampaignID := "C-2", Clicks := 1 }

/-- Third consolidated record of the C7 witness (never attempted). -/
def expRecC : TransformedData :=
  { (default : TransformedData) with Channel := "c_ads", CampaignID := "C-3", Clicks := 0 }

/-- Witness sink behaviour: delivery succeeds exactly for records with
zero clicks. -/
def sendW (r : TransformedData) : Bool := decide (r.Clicks = 0)

theorem c7_witness :
    sendW expRecB = false ∧
    exportLoop [expRecA, expRecB, expRecC] sendW = ([expRecA, expRecB], some expRecB) :=
  ⟨by decide,
    (c7_export_stops_at_failure [expRecA, expRecB, expRecC] sendW).1
      [expRecA] expRecB [expRecC] rfl (by decide) (by decide)⟩

/-! ## Store ingestion markers -/

theorem hasBeenIngested_iff (s : StoreState) (d : String) :
    HasBeenIngested s d = true ↔ d ∈ s.ingestionDates := by
  simp [HasBeenIngested, List.contains_iff_exists_mem_beq, beq_iff_eq]

/-- C6: appending a batch containing a record dated D marks D as
ingested; a batch with no record dated D leaves the marker for D
unchanged; and in any reachable store state, a marker for D implies the
store holds at least one transformed record dated D. -/
theorem c6_ingestion_marker (s : StoreState) (batch : List TransformedData)
    (d : String) :
    ((∃ r ∈ batch, r.Date = d) →
      HasBeenIngested (StoreTransformedData s batch) d = true) ∧
    ((∀ r ∈ batch, r.Date ≠ d) →
      HasBeenIngested (StoreTransformedData s batch) d = HasBeenIngested s d) ∧
    (ReachableStore s → HasBeenIngested s d = true → ∃ r ∈ s.data, r.Date = d) := by
  refine ⟨?_, ?_, ?_⟩
  · rintro ⟨r, hr, rfl⟩
    rw [hasBeenIngested_iff]
    simp [StoreTransformedData]
    exact Or.inr ⟨r, hr, rfl⟩
  · intro hnone
    have : (d ∈ (StoreTransformedData s batch).ingestionDates) ↔
        (d ∈ s.ingestionDates) := by
      simp only [StoreTransformedData, List.mem_append, List.mem_map]
      constructor
      · rintro (h | ⟨r, hr, hd⟩)
        · exact h
        · exact absurd hd (hnone r hr)
      · exact Or.inl
    rw [← Bool.coe_iff_coe, hasBeenIngested_iff, hasBeenIngested_iff]
    exact this
  · intro hreach
    induction hreach with
    | init => simp [HasBeenIngested, emptyStore]
    | step s2 batch2 _ ih =>
      intro hmark
      rw [hasBeenIngested_iff] at hmark
      simp only [StoreTransformedData, List.mem_append, List.mem_map] at hmark
      rcases hmark with hold | ⟨r, hr, hd⟩
      · obtain ⟨r, hr, hd⟩ := ih ((hasBeenIngested_iff s2 d).mpr hold)
        exact ⟨r, by simp [StoreTransformedData, hr], hd⟩
      · exact ⟨r, by simp [StoreTransformedData, hr], hd⟩

/-- Record ingested by the C6 witness. -/
def ingRec : TransformedData := { (default : TransformedData) with Date := "2025-01-01" }

theorem c6_witness :
    HasBeenIngested (StoreTransformedData emptyStore [ingRec]) "2025-01-01" = true ∧
    HasBeenIngested (StoreTransformedData emptyStore [ingRec]) "2025-01-02" =
      HasBeenIngested emptyStore "2025-01-02" ∧
    (∃ r ∈ (StoreTransformedData emptyStore [ingRec]).data, r.Date = "2025-01-01") :=
  ⟨(c6_ingestion_marker emptyStore [ingRec] "2025-01-01").1
      ⟨ingRec, by simp, by decide⟩,
    (c6_ingestion_marker emptyStore [ingRec] "2025-01-02").2.1
      (by intro r hr; simp at hr; subst hr; decide),
    (c6_ingestion_marker (StoreTransformedData emptyStore [ingRec]) [] "2025-01-01").2.2
      (ReachableStore.step emptyStore [ingRec] ReachableStore.init)
      (by decide)⟩

/-! ## Transform engine characterization -/

theorem transformData_go (crmLookup : List (CRMLookupKey × List Opportunity))
    (since : Option Date) (ads : List AdsPerformance) :
    ∀ acc : List TransformedData,
      List.foldl (transformStep crmLookup since) acc ads =
        acc ++ (ads.filter (keepAd since)).map
          (fun ad => mkTransformed ad crmLookup) := by
  induction ads with
  | nil => intro acc; simp
  | cons ad rest ih =>
    intro acc
    rw [List.foldl_cons]
    have hstep : transformStep crmLookup since acc ad =
        acc ++ (if keepAd since ad then [mkTransformed ad crmLookup] else []) := by
      cases since with
      | none => simp [transformStep, keepAd]
      | some s =>
        cases h : parseDate ad.Date with
        | none => simp [transformStep, keepAd, h]
        | some dte =>
          cases hd : dateLT dte s with
          | true => simp [transformStep, keepAd, h, hd]
          | false => simp [transformStep, keepAd, h, hd]
    rw [hstep, ih]
    by_cases hk : keepAd since ad = true
    · simp [hk, List.filter_cons]
    · simp [hk, List.filter_cons]

/-- C3 (amended): when sinceDate is set, the transform skips each ad
record whose date fails to parse and each record whose date is strictly
before sinceDate; when sinceDate is unset no record is skipped, not
even one with an unparseable date; every kept record yields exactly one
transformed record, in input order. -/
theorem c3_amended_transform_skip :
    (∀ (ads : List AdsPerformance) (crm : List Opportunity)
        (since : Option Date),
      transformData ads crm since =
        (ads.filter (keepAd since)).map
          (fun ad => mkTransformed ad (buildCRMLookup crm))) ∧
    (∀ ad, keepAd none ad = true) ∧
    (∀ s ad, parseDate ad.Date = none → keepAd (some s) ad = false) ∧
    (∀ s ad dte, parseDate ad.Date = some dte →
      keepAd (some s) ad = !dateLT dte s) := by
  refine ⟨?_, ?_, ?_, ?_⟩
  · intro ads crm since
    simpa [transformData] using
      transformData_go (buildCRMLookup crm) since ads []
  · intro ad; simp [keepAd]
  · intro s ad h; simp [keepAd, h]
  · intro s ad dte h; simp [keepAd, h]

/-- The ad record with an unparseable date used against C3. -/
def badDateAd : AdsPerformance :=
  { Date := "not-a-date", CampaignID := "C-1001", Channel := "google_ads"
    Clicks := 0, Impressions := 0, Cost := 0
    UTMCampaign := "", UTMSource := "", UTMMedium := "" }

/-- C3 counterexample: with sinceDate unset, a record whose date fails
to parse is NOT skipped — the transform emits a record for it, where
the claim requires it to be skipped. -/
theorem c3_counterexample_unset_since_bad_date :
    parseDate badDateAd.Date = none ∧
    transformData [badDateAd] [] none ≠ [] := by
  constructor
  · decide
  · decide

/-- An ad record dated strictly before the witness sinceDate. -/
def earlyAd : AdsPerformance :=
  { Date := "2025-01-01", CampaignID := "C-1001", Channel := "google_ads"
    Clicks := 0, Impressions := 0, Cost := 0
    UTMCampaign := "", UTMSource := "", UTMMedium := "" }

theorem c3_witness :
    keepAd none badDateAd = true ∧
    keepAd (some ⟨2025, 1, 2⟩) badDateAd = false ∧
    keepAd (some ⟨2025, 1, 2⟩) earlyAd = !dateLT ⟨2025, 1, 1⟩ ⟨2025, 1, 2⟩ :=
  ⟨c3_amended_transform_skip.2.1 badDateAd,
    c3_amended_transform_skip.2.2.1 ⟨2025, 1, 2⟩ badDateAd (by decide),
    c3_amended_transform_skip.2.2.2 ⟨2025, 1, 2⟩ earlyAd ⟨2025, 1, 1⟩ (by decide)⟩

/-! ## Matcher characterization -/

theorem crmGroup_append_one (opps : List Opportunity) (o : Opportunity)
    (k : CRMLookupKey) :
    crmGroup (opps ++ [o]) k =
      crmGroup opps k ++ (if oppKey o = k then [o] else []) := by
  simp only [crmGroup, List.filter_append, List.filter]
  by_cases h : oppKey o = k <;> simp [h]

theorem lookupA_buildCRMLookup (opps : List Opportunity) (k : CRMLookupKey) :
    lookupA k (buildCRMLookup opps) =
      (if crmGroup opps k = [] then none else some (crmGroup opps k)) := by
  induction opps using List.reverseRecOn with
  | nil => simp [buildCRMLookup, lookupA, crmGroup]
  | append_singleton opps o ih =>
    have hfold : buildCRMLookup (opps ++ [o]) =
        (match lookupA (oppKey o) (buildCRMLookup opps) with
         | some prior => updAssoc (buildCRMLookup opps) (oppKey o) (prior ++ [o])
         | none => updAssoc (buildCRMLookup opps) (oppKey o) [o]) := by
      simp [buildCRMLookup, List.foldl_append]
    by_cases hk : oppKey o = k
    · subst hk
      rw [hfold, crmGroup_append_one]
      simp only [if_pos rfl]
      cases hpr : lookupA (oppKey o) (buildCRMLookup opps) with
      | none =>
        rw [hpr] at ih
        have hg : crmGroup opps (oppKey o) = [] := by
          by_cases h : crmGroup opps (oppKey o) = []
          · exact h
          · simp [h] at ih
        simp [hg, lookupA_updAssoc_self]
      | some prior =>
        rw [hpr] at ih
        have hg : crmGroup opps (oppKey o) ≠ [] ∧
            prior = crmGroup opps (oppKey o) := by
          by_cases h : crmGroup opps (oppKey o) = []
          · simp [h] at ih
          · simp [h] at ih
            exact ⟨h, ih⟩
        rw [lookupA_updAssoc_self, hg.2]
        simp [hg.1]
    · have hkk : k ≠ oppKey o := fun h => hk h.symm
      rw [hfold, crmGroup_append_one]
      have hgroup : crmGroup opps k ++ (if oppKey o = k then [o] else []) =
          crmGroup opps k := by simp [hk]
      rw [hgroup]
      cases hpr : lookupA (oppKey o) (buildCRMLookup opps) with
      | none => rw [lookupA_updAssoc_ne _ _ hkk]; exact ih
      | some prior => rw [lookupA_updAssoc_ne _ _ hkk]; exact ih

/-- C1: for every ad record and every index built by `buildCRMLookup`,
the resolution applies the three lookup tiers in strict order — exact
normalized triple, campaign-only, source-only — returning the full
group of the first tier whose key is populated and never falling
through once a tier matches; with no populated tier it returns the
empty list (a total function, never an error). -/
theorem c1_matcher_tier_order (ad : AdsPerformance) (opps : List Opportunity) :
    findMatchingOpportunities ad (buildCRMLookup opps) =
      (if crmGroup opps (adExactKey ad) ≠ [] then crmGroup opps (adExactKey ad)
       else if crmGroup opps (adCampaignKey ad) ≠ [] then
         crmGroup opps (adCampaignKey ad)
       else if crmGroup opps (adSourceKey ad) ≠ [] then
         crmGroup opps (adSourceKey ad)
       else []) := by
  unfold findMatchingOpportunities
  rw [lookupA_buildCRMLookup, lookupA_buildCRMLookup, lookupA_buildCRMLookup]
  by_cases h1 : crmGroup opps (adExactKey ad) = [] <;>
    by_cases h2 : crmGroup opps (adCampaignKey ad) = [] <;>
      by_cases h3 : crmGroup opps (adSourceKey ad) = [] <;>
        simp [h1, h2, h3]

/-! ## Query pagination -/

/-- C5: for non-negative offsets the query returns exactly the filtered
records — those whose date parses and lies in the inclusive range and
which satisfy the filter map — in storage order, sliced from `offset`
with `limit ≤ 0` meaning all remaining; when `limit > 0` the returned
count is `min limit (max 0 (total - offset))`; an offset at or past the
filtered length yields the empty list, not an error; records whose date
fails to parse are excluded rather than failing the query. -/
theorem c5_query_pagination (data : List TransformedData) (fromD toD : Date)
    (filters : List (String × String)) (limit offset : Int)
    (hoff : 0 ≤ offset) :
    GetTransformedData data fromD toD filters limit offset =
      some (((queryFilter data fromD toD filters).drop offset.toNat).take
        (if limit ≤ 0 then (queryFilter data fromD toD filters).length
         else limit.toNat)) ∧
    (∀ result, GetTransformedData data fromD toD filters limit offset =
        some result → 0 < limit →
      result.length =
        min limit.toNat
          ((queryFilter data fromD toD filters).length - offset.toNat)) ∧
    (∀ r ∈ queryFilter data fromD toD filters, (parseDate r.Date).isSome) := by
  have hmain : GetTransformedData data fromD toD filters limit offset =
      some (((queryFilter data fromD toD filters).drop offset.toNat).take
        (if limit ≤ 0 then (queryFilter data fromD toD filters).length
         else limit.toNat)) := by
    simp only [GetTransformedData]
    set filtered := queryFilter data fromD toD filters with hfil
    by_cases h1 : offset ≥ (filtered.length : Int)
    · rw [if_pos h1]
      have hdrop : filtered.drop offset.toNat = [] :=
        List.drop_eq_nil_of_le (by omega)
      rw [hdrop, List.take_nil]
    · rw [if_neg h1]
      have hlen : offset.toNat < filtered.length := by omega
      by_cases hl : limit ≤ 0
      · simp only [if_pos hl]
        have hstop : ¬ ((filtered.length : Int) > (filtered.length : Int)) := by
          omega
        rw [if_neg hstop]
        rw [if_pos (by constructor <;> omega : 0 ≤ offset ∧
          offset ≤ (filtered.length : Int))]
        congr 1
        rw [List.take_of_length_le, List.take_of_length_le]
        · simp [List.length_drop]
        · simp [List.length_drop]
          omega
      · simp only [if_neg hl]
        by_cases h2 : offset + limit > (filtered.length : Int)
        · rw [if_pos h2]
          rw [if_pos (by constructor <;> omega : 0 ≤ offset ∧
            offset ≤ (filtered.length : Int))]
          congr 1
          rw [List.take_of_length_le, List.take_of_length_le]
          · simp only [List.length_drop]
            omega
          · simp only [List.length_drop]
            omega
        · rw [if_neg h2]
          rw [if_pos (by constructor <;> omega : 0 ≤ offset ∧
            offset ≤ offset + limit)]
          have harg : ((offset + limit) - offset).toNat = limit.toNat := by omega
          rw [harg]
  refine ⟨hmain, ?_, ?_⟩
  · intro result hres hlim
    rw [hmain] at hres
    have hres2 := Option.some.injEq _ _ ▸ hres
    have : result = ((queryFilter data fromD toD filters).drop offset.toNat).take
        (if limit ≤ 0 then (queryFilter data fromD toD filters).length
         else limit.toNat) := by
      exact Option.some_injective _ hres.symm
    subst this
    rw [if_neg (by omega)]
    simp [List.length_take, List.length_drop]
  · intro r hr
    have := List.mem_filter.mp hr
    cases hp : parseDate r.Date with
    | none => rw [hp] at this; simp at this
    | some d => simp

theorem c5_witness :
    0 ≤ (0 : Int) ∧
    (GetTransformedData [storedRec] dayOne dayOne [] 1 0 =
      some (((queryFilter [storedRec] dayOne dayOne []).drop (0 : Int).toNat).take
        (if (1 : Int) ≤ 0 then (queryFilter [storedRec] dayOne dayOne []).length
         else (1 : Int).toNat)) ∧
    (∀ result, GetTransformedData [storedRec] dayOne dayOne [] 1 0 =
        some result → 0 < (1 : Int) →
      result.length =
        min (1 : Int).toNat
          ((queryFilter [storedRec] dayOne dayOne []).length - (0 : Int).toNat)) ∧
    (∀ r ∈ queryFilter [storedRec] dayOne dayOne [], (parseDate r.Date).isSome)) :=
  ⟨by decide, c5_query_pagination [storedRec] dayOne dayOne [] 1 0 (by decide)⟩

/-! ## Consolidation characterization -/

theorem lookupA_mapKeys {α β : Type} [DecidableEq α] (f : α → β)
    (ks : List α) (k : α) :
    lookupA k (ks.map (fun k2 => (k2, f k2))) =
      (if k ∈ ks then some (f k) else none) := by
  induction ks with
  | nil => simp [lookupA]
  | cons a rest ih =>
    simp only [List.map_cons, lookupA]
    by_cases h : a = k
    · subst h; simp
    · have hka : ¬ k = a := fun hh => h hh.symm
      rw [if_neg h, ih]
      by_cases hm : k ∈ rest <;> simp [hm, hka]

theorem updAssoc_mapKeys_self {α β : Type} [DecidableEq α] (f : α → β)
    (ks : List α) (k : α) (v : β) (hnd : ks.Nodup) (hk : k ∈ ks) :
    updAssoc (ks.map (fun k2 => (k2, f k2))) k v =
      ks.map (fun k2 => (k2, if k2 = k then v else f k2)) := by
  induction ks with
  | nil => simp at hk
  | cons a rest ih =>
    rcases List.mem_cons.mp hk with rfl | hmem
    · simp only [List.map_cons, updAssoc, if_pos rfl]
      have hrest : ∀ k2 ∈ rest,
          ((k2, f k2) : α × β) = (k2, if k2 = k then v else f k2) := by
        intro k2 hk2
        have hne : k2 ≠ k := fun hh =>
          (List.nodup_cons.mp hnd).1 (hh ▸ hk2)
        simp [hne]
      rw [List.map_congr_left hrest]
      simp
    · have hak : ¬ a = k := fun hh =>
        (List.nodup_cons.mp hnd).1 (hh ▸ hmem)
      simp only [List.map_cons, updAssoc, if_neg hak]
      rw [ih (List.nodup_cons.mp hnd).2 hmem]

theorem updAssoc_mapKeys_notMem {α β : Type} [DecidableEq α] (f : α → β)
    (ks : List α) (k : α) (v : β) (hk : k ∉ ks) :
    updAssoc (ks.map (fun k2 => (k2, f k2))) k v =
      ks.map (fun k2 => (k2, f k2)) ++ [(k, v)] := by
  induction ks with
  | nil => simp [updAssoc]
  | cons a rest ih =>
    have hak : ¬ a = k := fun hh => hk (by simp [hh])
    simp only [List.map_cons, updAssoc, if_neg hak, List.cons_append]
    rw [ih (fun hm => hk (by simp [hm]))]

theorem consKeys_append_one (data : List TransformedData)
    (item : TransformedData) :
    consKeys (data ++ [item]) =
      (if consKey item ∈ consKeys data then consKeys data
       else consKeys data ++ [consKey item]) := by
  simp [consKeys, List.foldl_append]

theorem mem_consKeys_foldl (data : List TransformedData) :
    ∀ (acc : List String) (k : String),
      (k ∈ data.foldl
        (fun ks r => if consKey r ∈ ks then ks else ks ++ [consKey r]) acc) ↔
        (k ∈ acc ∨ k ∈ data.map consKey) := by
  induction data with
  | nil => simp
  | cons r rest ih =>
    intro acc k
    rw [List.foldl_cons, ih]
    have hstep : (k ∈ if consKey r ∈ acc then acc else acc ++ [consKey r]) ↔
        (k ∈ acc ∨ k = consKey r) := by
      by_cases h : consKey r ∈ acc
      · rw [if_pos h]
        constructor
        · exact Or.inl
        · rintro (hk | rfl)
          · exact hk
          · exact h
      · rw [if_neg h]; simp
    rw [hstep]
    simp only [List.map_cons, List.mem_cons]
    tauto

theorem mem_consKeys (data : List TransformedData) (k : String) :
    k ∈ consKeys data ↔ k ∈ data.map consKey := by
  simpa [consKeys] using mem_consKeys_foldl data [] k

theorem nodup_consKeys_foldl (data : List TransformedData) :
    ∀ acc : List String, acc.Nodup →
      (data.foldl
        (fun ks r => if consKey r ∈ ks then ks else ks ++ [consKey r]) acc).Nodup := by
  induction data with
  | nil => intro acc h; simpa
  | cons r rest ih =>
    intro acc h
    rw [List.foldl_cons]
    apply ih
    by_cases hm : consKey r ∈ acc
    · simpa [hm]
    · rw [if_neg hm]
      rw [List.nodup_append]
      refine ⟨h, List.nodup_singleton _, ?_⟩
      intro a ha hb
      exact hm ((List.mem_singleton.mp hb) ▸ ha)

theorem nodup_consKeys (data : List TransformedData) : (consKeys data).Nodup :=
  nodup_consKeys_foldl data [] (List.nodup_nil)

theorem consGroup_append_one (data : List TransformedData)
    (item : TransformedData) (k : String) :
    consGroup (data ++ [item]) k =
      consGroup data k ++ (if consKey item = k then [item] else []) := by
  simp only [consGroup, List.filter_append]
  by_cases h : consKey item = k <;> simp [h]

theorem consGroup_eq_nil_iff (data : List TransformedData) (k : String) :
    consGroup data k = [] ↔ k ∉ data.map consKey := by
  rw [consGroup, List.filter_eq_nil_iff]
  simp only [List.mem_map, decide_eq_true_eq]
  constructor
  · rintro h ⟨r, hr, rfl⟩
    exact h r hr rfl
  · intro h r hr hk
    exact h ⟨r, hr, hk⟩

theorem consMergeGroup_snoc (g : List TransformedData) (i : TransformedData)
    (h : g ≠ []) :
    consMergeGroup (g ++ [i]) = mergeRecord (consMergeGroup g) i := by
  cases g with
  | nil => exact absurd rfl h
  | cons a t => simp [consMergeGroup, List.foldl_append]

theorem consFold_eq (data : List TransformedData) :
    consFold data = (consKeys data).map
      (fun k => (k, consMergeGroup (consGroup data k))) := by
  induction data using List.reverseRecOn with
  | nil => simp [consFold, consKeys]
  | append_singleton data item ih =>
    have hfold : consFold (data ++ [item]) = consStep (consFold data) item := by
      simp [consFold, List.foldl_append]
    by_cases hmem : consKey item ∈ consKeys data
    · have hg : consGroup data (consKey item) ≠ [] := by
        rw [Ne, consGroup_eq_nil_iff]
        simpa using (mem_consKeys data (consKey item)).mp hmem
      have hlk : lookupA (consKey item) (consFold data) =
          some (consMergeGroup (consGroup data (consKey item))) := by
        rw [ih, lookupA_mapKeys]
        simp [hmem]
      have hstep : consStep (consFold data) item =
          updAssoc (consFold data) (consKey item)
            (mergeRecord (consMergeGroup (consGroup data (consKey item))) item) := by
        unfold consStep
        rw [hlk]
      rw [hfold, hstep]
      rw [ih, updAssoc_mapKeys_self _ _ _ _ (nodup_consKeys data) hmem]
      rw [consKeys_append_one, if_pos hmem]
      apply List.map_congr_left
      intro k hk
      by_cases hkk : k = consKey item
      · subst hkk
        rw [consGroup_append_one]
        rw [show (if consKey item = consKey item then [item] else []) = [item]
          from if_pos rfl]
        rw [consMergeGroup_snoc _ _ hg]
        simp
      · have hik : ¬ consKey item = k := fun hh => hkk hh.symm
        rw [consGroup_append_one, if_neg hik]
        simp [hkk]
    · have hg : consGroup data (consKey item) = [] := by
        rw [consGroup_eq_nil_iff]
        intro hmap
        exact hmem ((mem_consKeys data (consKey item)).mpr hmap)
      have hlk : lookupA (consKey item) (consFold data) = none := by
        rw [ih, lookupA_mapKeys]
        simp [hmem]
      have hstep : consStep (consFold data) item =
          updAssoc (consFold data) (consKey item) item := by
        unfold consStep
        rw [hlk]
      rw [hfold, hstep]
      rw [ih, updAssoc_mapKeys_notMem _ _ _ _ hmem]
      rw [consKeys_append_one, if_neg hmem]
      rw [List.map_append]
      congr 1
      · apply List.map_congr_left
        intro k hk
        have hkk : ¬ consKey item = k := fun hh => hmem (hh ▸ hk)
        rw [consGroup_append_one, if_neg hkk]
        simp
      · simp only [List.map_cons, List.map_nil]
        rw [consGroup_append_one, hg]
        simp [consMergeGroup]

theorem mergeFold_counters (t : List TransformedData) :
    ∀ h : TransformedData,
      (t.foldl mergeRecord h).Channel = h.Channel ∧
      (t.foldl mergeRecord h).CampaignID = h.CampaignID ∧
      (t.foldl mergeRecord h).Clicks =
        h.Clicks + (t.map (fun r => r.Clicks)).sum ∧
      (t.foldl mergeRecord h).Impressions =
        h.Impressions + (t.map (fun r => r.Impressions)).sum ∧
      (t.foldl mergeRecord h).Cost = h.Cost + (t.map (fun r => r.Cost)).sum ∧
      (t.foldl mergeRecord h).Leads = h.Leads + (t.map (fun r => r.Leads)).sum ∧
      (t.foldl mergeRecord h).Opportunities =
        h.Opportunities + (t.map (fun r => r.Opportunities)).sum ∧
      (t.foldl mergeRecord h).ClosedWon =
        h.ClosedWon + (t.map (fun r => r.ClosedWon)).sum ∧
      (t.foldl mergeRecord h).Revenue =
        h.Revenue + (t.map (fun r => r.Revenue)).sum := by
  induction t with
  | nil => intro h; simp
  | cons a t ih =>
    intro h
    rw [List.foldl_cons]
    obtain ⟨h1, h2, h3, h4, h5, h6, h7, h8, h9⟩ := ih (mergeRecord h a)
    refine ⟨?_, ?_, ?_, ?_, ?_, ?_, ?_, ?_, ?_⟩
    · rw [h1]; rfl
    · rw [h2]; rfl
    · rw [List.map_cons, List.sum_cons, h3,
        show (mergeRecord h a).Clicks = h.Clicks + a.Clicks from rfl]
      ring
    · rw [List.map_cons, List.sum_cons, h4,
        show (mergeRecord h a).Impressions = h.Impressions + a.Impressions from rfl]
      ring
    · rw [List.map_cons, List.sum_cons, h5,
        show (mergeRecord h a).Cost = h.Cost + a.Cost from rfl]
      ring
    · rw [List.map_cons, List.sum_cons, h6,
        show (mergeRecord h a).Leads = h.Leads + a.Leads from rfl]
      ring
    · rw [List.map_cons, List.sum_cons, h7,
        show (mergeRecord h a).Opportunities =
          h.Opportunities + a.Opportunities from rfl]
      ring
    · rw [List.map_cons, List.sum_cons, h8,
        show (mergeRecord h a).ClosedWon = h.ClosedWon + a.ClosedWon from rfl]
      ring
    · rw [List.map_cons, List.sum_cons, h9,
        show (mergeRecord h a).Revenue = h.Revenue + a.Revenue from rfl]
      ring

/-- C4 (amended): consolidation groups records by the concatenated
string key channel|campaign id (which coincides with grouping by the
pair whenever the channel contains no | character); each group's
output record is the group's first record merged left to right with the
rest, so that the seven counters are exact sums over the group, while
each derived metric is recomputed from the running sums only under the
positive-denominator guard (a single-record group therefore keeps its
stored derived metrics unchanged); the output is sorted ascending by
(channel, campaign id). -/
theorem c4_amended_consolidation (data : List TransformedData) :
    consolidateDataByChannelAndCampaign data =
      List.insertionSort consLE
        ((consKeys data).map (fun k => consMergeGroup (consGroup data k))) ∧
    List.Sorted consLE (consolidateDataByChannelAndCampaign data) ∧
    (∀ k, consGroup data k ≠ [] →
      consKey (consMergeGroup (consGroup data k)) = k ∧
      (consMergeGroup (consGroup data k)).Clicks =
        ((consGroup data k).map (fun r => r.Clicks)).sum ∧
      (consMergeGroup (consGroup data k)).Impressions =
        ((consGroup data k).map (fun r => r.Impressions)).sum ∧
      (consMergeGroup (consGroup data k)).Cost =
        ((consGroup data k).map (fun r => r.Cost)).sum ∧
      (consMergeGroup (consGroup data k)).Leads =
        ((consGroup data k).map (fun r => r.Leads)).sum ∧
      (consMergeGroup (consGroup data k)).Opportunities =
        ((consGroup data k).map (fun r => r.Opportunities)).sum ∧
      (consMergeGroup (consGroup data k)).ClosedWon =
        ((consGroup data k).map (fun r => r.ClosedWon)).sum ∧
      (consMergeGroup (consGroup data k)).Revenue =
        ((consGroup data k).map (fun r => r.Revenue)).sum) := by
  refine ⟨?_, ?_, ?_⟩
  · unfold consolidateDataByChannelAndCampaign
    rw [consFold_eq, List.map_map]
    rfl
  · exact List.sorted_insertionSort consLE _
  · intro k hg
    rcases hcase : consGroup data k with _ | ⟨h, t⟩
    · exact absurd hcase hg
    · have hkey : consKey h = k := by
        have hmem : h ∈ consGroup data k := by rw [hcase]; simp
        have hf : h ∈ data ∧ consKey h = k := by
          simpa [consGroup, List.mem_filter] using hmem
        exact hf.2
      obtain ⟨p1, p2, p3, p4, p5, p6, p7, p8, p9⟩ := mergeFold_counters t h
      refine ⟨?_, ?_, ?_, ?_, ?_, ?_, ?_, ?_⟩
      · show consKey (List.foldl mergeRecord h t) = k
        simp only [consKey, p1, p2]
        exact hkey
      · show (List.foldl mergeRecord h t).Clicks = _
        rw [p3, List.map_cons, List.sum_cons]
      · show (List.foldl mergeRecord h t).Impressions = _
        rw [p4, List.map_cons, List.sum_cons]
      · show (List.foldl mergeRecord h t).Cost = _
        rw [p5, List.map_cons, List.sum_cons]
      · show (List.foldl mergeRecord h t).Leads = _
        rw [p6, List.map_cons, List.sum_cons]
      · show (List.foldl mergeRecord h t).Opportunities = _
        rw [p7, List.map_cons, List.sum_cons]
      · show (List.foldl mergeRecord h t).ClosedWon = _
        rw [p8, List.map_cons, List.sum_cons]
      · show (List.foldl mergeRecord h t).Revenue = _
        rw [p9, List.map_cons, List.sum_cons]

/-- A transformed record whose stored cpc (99) disagrees with the
guarded recomputation cost/clicks = 1. -/
def cexRec : TransformedData :=
  { Date := "2025-01-01", Channel := "google_ads", CampaignID := "C-1"
    Clicks := 1, Impressions := 0, Cost := 1, Leads := 0
    Opportunities := 0, ClosedWon := 0, Revenue := 0
    CPC := 99, CPA := 0, CVRLeadToOpp := 0, CVROppToWon := 0, ROAS := 0 }

/-- C4 counterexample: consolidating a single record passes its stored
derived metrics through unchanged — here the output cpc stays 99 even
though the aggregated clicks are positive and the guarded recomputation
from the aggregated sums would give cost/clicks = 1.  The claim, which
requires every output record's ratios to be recomputed from the
aggregated sums, fails on this input. -/
theorem c4_counterexample_singleton_metrics :
    consolidateDataByChannelAndCampaign [cexRec] = [cexRec] ∧
    0 < cexRec.Clicks ∧
    cexRec.CPC ≠ cexRec.Cost / (cexRec.Clicks : ℚ) := by
  refine ⟨by decide, by decide, ?_⟩
  show (99 : ℚ) ≠ (1 : ℚ) / ((1 : Int) : ℚ)
  norm_num

/-- First record of the C4 witness group. -/
def cw1 : TransformedData :=
  { (default : TransformedData) with
    Date := "2025-01-01", Channel := "google_ads", CampaignID := "C-1",
    Clicks := 2, Cost := 4 }

/-- Second record of the C4 witness group (same channel and campaign). -/
def cw2 : TransformedData :=
  { (default : TransformedData) with
    Date := "2025-01-02", Channel := "google_ads", CampaignID := "C-1",
    Clicks := 3, Cost := 6 }

theorem c4_witness :
    consGroup [cw1, cw2] "google_ads|C-1" ≠ [] ∧
    (consKey (consMergeGroup (consGroup [cw1, cw2] "google_ads|C-1")) =
        "google_ads|C-1" ∧
      (consMergeGroup (consGroup [cw1, cw2] "google_ads|C-1")).Clicks =
        ((consGroup [cw1, cw2] "google_ads|C-1").map (fun r => r.Clicks)).sum ∧
      (consMergeGroup (consGroup [cw1, cw2] "google_ads|C-1")).Impressions =
        ((consGroup [cw1, cw2] "google_ads|C-1").map
          (fun r => r.Impressions)).sum ∧
      (consMergeGroup (consGroup [cw1, cw2] "google_ads|C-1")).Cost =
        ((consGroup [cw1, cw2] "google_ads|C-1").map (fun r => r.Cost)).sum ∧
      (consMergeGroup (consGroup [cw1, cw2] "google_ads|C-1")).Leads =
        ((consGroup [cw1, cw2] "google_ads|C-1").map (fun r => r.Leads)).sum ∧
      (consMergeGroup (consGroup [cw1, cw2] "google_ads|C-1")).Opportunities =
        ((consGroup [cw1, cw2] "google_ads|C-1").map
          (fun r => r.Opportunities)).sum ∧
      (consMergeGroup (consGroup [cw1, cw2] "google_ads|C-1")).ClosedWon =
        ((consGroup [cw1, cw2] "google_ads|C-1").map
          (fun r => r.ClosedWon)).sum ∧
      (consMergeGroup (consGroup [cw1, cw2] "google_ads|C-1")).Revenue =
        ((consGroup [cw1, cw2] "google_ads|C-1").map
          (fun r => r.Revenue)).sum) :=
  ⟨by decide, (c4_amended_consolidation [cw1, cw2]).2.2 "google_ads|C-1"
    (by decide)⟩
